import Mathlib

/-!
Verification development for the Wakacje vacation-offer comparison app.

The TypeScript/React sources are shallowly embedded below:
* JS string builtins (`trim`, `includes`, `parseFloat`, `parseInt`, `JSON.parse`)
  are modelled as total Lean functions; JS numbers are modelled as `Rat`
  (`NaN` becomes `none` of an `Option`), which is adequate because no claim
  depends on floating-point rounding.
* The regular expressions of the display components are embedded through a
  small backtracking matcher whose result lists are ordered by JS regex
  priority (greedy quantifiers longest-first, lazy ones shortest-first,
  alternatives left-first, unanchored search leftmost-first).
* The API route handlers become state transformers over a `Db` record that
  mirrors the SQL migration; a `failAt` parameter names which ORM call (0-based,
  in program order) throws, so that caught-exception behaviour is expressible.
-/

namespace Wakacje

/-! ## JS primitives -/

/-- JS whitespace (the code points relevant to this code base). -/
def jsSpace (c : Char) : Bool :=
  c = ' ' || c = '\t' || c = '\n' || c = '\r' || c = '\x0b' || c = '\x0c' || c = ' '

/-- JS `String.prototype.trim` (computable by kernel reduction, unlike
`String.trim`, and trimming the JS whitespace class). -/
def jsTrim (s : String) : String :=
  String.mk (((s.toList.dropWhile jsSpace).reverse.dropWhile jsSpace).reverse)

/-- JS `String.prototype.toLowerCase` (the keywords involved are ASCII). -/
def jsToLower (s : String) : String :=
  String.mk (s.toList.map Char.toLower)

/-- Does `hay` start with `needle`? -/
def startsWithL : List Char → List Char → Bool
  | [], _ => true
  | _ :: _, [] => false
  | a :: as, b :: bs => a = b && startsWithL as bs

/-- Substring containment on char lists (`String.prototype.includes`). -/
def containsSubL (hay needle : List Char) : Bool :=
  startsWithL needle hay ||
    match hay with
    | [] => false
    | _ :: t => containsSubL t needle

/-- Embeds `hay.includes(needle)`. -/
def jsIncludes (hay needle : String) : Bool :=
  containsSubL hay.toList needle.toList

/-- Digit list to natural number. -/
def digitsToNat (ds : List Char) : Nat :=
  ds.foldl (fun acc c => acc * 10 + (c.toNat - '0'.toNat)) 0

/-- Value of a fraction-digit list, i.e. `0.d₁d₂…` as a rational. -/
def fracToRat (ds : List Char) : Rat :=
  (digitsToNat ds : Rat) / ((10 : Rat) ^ ds.length)

/-- Apply a decimal exponent to a rational. -/
def applyExp10 (m : Rat) (e : Int) : Rat :=
  if 0 ≤ e then m * (10 : Rat) ^ e.toNat else m / (10 : Rat) ^ (-e).toNat

/-- JS `parseFloat`: longest numeric prefix after leading whitespace, `none` for
`NaN`.  (`Infinity` literals are not representable in `Rat` and are unreachable
at this code base's call sites, whose inputs contain only digits, `,`, `.`, `-`.) -/
def parseFloatOpt (s : String) : Option Rat :=
  let cs := s.toList.dropWhile jsSpace
  let (sign, cs) : Rat × List Char :=
    match cs with
    | '+' :: t => (1, t)
    | '-' :: t => (-1, t)
    | _ => (1, cs)
  let intDs := cs.takeWhile Char.isDigit
  let rest := cs.dropWhile Char.isDigit
  let (fracDs, rest2) : List Char × List Char :=
    match rest with
    | '.' :: t => (t.takeWhile Char.isDigit, t.dropWhile Char.isDigit)
    | _ => ([], rest)
  if intDs.isEmpty && fracDs.isEmpty then none
  else
    let mant : Rat := (digitsToNat intDs : Rat) + fracToRat fracDs
    let e : Int :=
      match rest2 with
      | 'e' :: t | 'E' :: t =>
        let (es, t') : Int × List Char :=
          match t with
          | '+' :: u => (1, u)
          | '-' :: u => (-1, u)
          | _ => (1, t)
        let eds := t'.takeWhile Char.isDigit
        if eds.isEmpty then 0 else es * (digitsToNat eds : Int)
      | _ => 0
    some (sign * applyExp10 mant e)

/-- JS `parseInt` with no radix argument: leading whitespace, sign, optional
`0x`/`0X` hex prefix, then digits; `none` for `NaN`. -/
def parseIntOpt (s : String) : Option Int :=
  let cs := s.toList.dropWhile jsSpace
  let (sign, cs) : Int × List Char :=
    match cs with
    | '+' :: t => (1, t)
    | '-' :: t => (-1, t)
    | _ => (1, cs)
  match cs with
  | '0' :: 'x' :: t | '0' :: 'X' :: t =>
    let hds := t.takeWhile (fun c => c.isDigit || ('a' ≤ c && c ≤ 'f') || ('A' ≤ c && c ≤ 'F'))
    if hds.isEmpty then none
    else some (sign * (hds.foldl (fun acc c =>
      acc * 16 + (if c.isDigit then c.toNat - '0'.toNat
                  else if 'a' ≤ c then c.toNat - 'a'.toNat + 10
                  else c.toNat - 'A'.toNat + 10)) 0 : Int))
  | _ =>
    let ds := cs.takeWhile Char.isDigit
    if ds.isEmpty then none else some (sign * (digitsToNat ds : Int))

/-- Embeds `priceString.replace(/[^\d.-]/g, "")`. -/
def stripNonNum (s : String) : String :=
  String.mk (s.toList.filter (fun c => c.isDigit || c = '.' || c = '-'))

/-- Embeds `s.replace(a, b)` with one-character pattern: replaces the first occurrence only. -/
def replaceFirstChar (s : String) (a b : Char) : String :=
  String.mk (go s.toList)
where
  go : List Char → List Char
    | [] => []
    | c :: t => if c = a then b :: t else c :: go t

/-- Embeds `s.replace(/[,.]/g, "")`. -/
def removeCommasDots (s : String) : String :=
  String.mk (s.toList.filter (fun c => c ≠ ',' && c ≠ '.'))

/-! ## A tiny backtracking regex matcher

A matcher takes the input suffix and returns every way of matching a prefix of
it, as `(captured groups, remaining suffix)` pairs ordered by JS regex
priority: the head of the list is the alternative a JS engine commits to first.
-/

/-- Matcher: priority-ordered list of (captures, rest). -/
def RxM : Type := List Char → List (List (Nat × String) × List Char)

/-- Empty pattern. -/
def epsM : RxM := fun s => [([], s)]

/-- Single character from a class. -/
def clsM (p : Char → Bool) : RxM := fun s =>
  match s with
  | [] => []
  | c :: t => if p c then [([], t)] else []

/-- Literal character. -/
def litM (c : Char) : RxM := clsM (fun d => d = c)

/-- Concatenation. -/
def seqM (a b : RxM) : RxM := fun s =>
  (a s).flatMap (fun pr => (b pr.2).map (fun qr => (pr.1 ++ qr.1, qr.2)))

/-- Alternation (left alternative preferred). -/
def altM (a b : RxM) : RxM := fun s => a s ++ b s

/-- Greedy `?`. -/
def optM (a : RxM) : RxM := altM a epsM

/-- Suffixes reachable by consuming a (possibly empty) run of class characters,
longest run first. -/
def clsRests (p : Char → Bool) : List Char → List (List Char)
  | [] => [[]]
  | c :: t => if p c then clsRests p t ++ [c :: t] else [c :: t]

/-- Greedy `*` over a character class. -/
def clsStarM (p : Char → Bool) : RxM := fun s =>
  (clsRests p s).map (fun r => ([], r))

/-- Greedy `+` over a character class. -/
def clsPlusM (p : Char → Bool) : RxM := fun s =>
  match s with
  | [] => []
  | c :: t => if p c then (clsRests p t).map (fun r => ([], r)) else []

/-- Lazy `*?` over a character class (shortest run first). -/
def clsStarLazyM (p : Char → Bool) : RxM := fun s =>
  ((clsRests p s).reverse).map (fun r => ([], r))

/-- Embeds `{n}`: exactly `n` repetitions. -/
def repM (a : RxM) : Nat → RxM
  | 0 => epsM
  | n + 1 => seqM a (repM a n)

/-- Capture group `i`: records the consumed substring under index `i`. -/
def groupM (i : Nat) (a : RxM) : RxM := fun s =>
  (a s).map (fun pr => (pr.1 ++ [(i, String.mk (s.take (s.length - pr.2.length)))], pr.2))

/-- Embeds `$` anchor (no multiline flag anywhere in the sources). -/
def endM : RxM := fun s => match s with | [] => [([], [])] | _ => []

/-- Match at the current position, committing to the highest-priority result
(the JS behaviour for an anchored pattern). -/
def execHere (m : RxM) (s : List Char) : Option (List (Nat × String)) :=
  match m s with
  | [] => none
  | pr :: _ => some pr.1

/-- Unanchored search: leftmost starting position wins (`String.prototype.match`
of a regex without the `g` flag). -/
def execSearch (m : RxM) : List Char → Option (List (Nat × String))
  | [] => execHere m []
  | s@(_ :: t) =>
    match execHere m s with
    | some c => some c
    | none => execSearch m t

/-- Group access `match[i]` (`none` when the group did not participate). -/
def capGet (caps : List (Nat × String)) (i : Nat) : Option String :=
  (caps.find? (fun pr => pr.1 == i)).map (·.2)

/-- Case-insensitive `startsWithL`. -/
def startsWithCIL : List Char → List Char → Bool
  | [], _ => true
  | _ :: _, [] => false
  | a :: as, b :: bs => a.toLower = b.toLower && startsWithCIL as bs

/-- Embeds `priceString.match(/(PLN|EUR|USD|GBP)/i)` followed by `toUpperCase()`:
returns the (upper-cased) currency code of the leftmost match. -/
def currencyFind : List Char → Option String
  | [] => none
  | s@(_ :: t) =>
    match ["PLN", "EUR", "USD", "GBP"].find? (fun k => startsWithCIL k.toList s) with
    | some k => some k
    | none => currencyFind t

/-! ## RatingDisplay: `parseRating` -/

/-- Embeds `[0-9,.]`. -/
def digitCommaDot (c : Char) : Bool := c.isDigit || c = ',' || c = '.'

/-- Embeds `components/RatingDisplay.tsx` star regex:
`/★\s*([0-9,.]+)(?:\/([0-9,.]+))?\s*(?:[–-]\s*([^(]+))?\s*(?:\(≈?\s*([0-9,.]+)\s*([^)]+)\))?/i` -/
def starRx : RxM :=
  seqM (litM '★')
  (seqM (clsStarM jsSpace)
  (seqM (groupM 1 (clsPlusM digitCommaDot))
  (seqM (optM (seqM (litM '/') (groupM 2 (clsPlusM digitCommaDot))))
  (seqM (clsStarM jsSpace)
  (seqM (optM (seqM (clsM (fun c => c = '–' || c = '-'))
              (seqM (clsStarM jsSpace) (groupM 3 (clsPlusM (fun c => c ≠ '('))))))
  (seqM (clsStarM jsSpace)
  (optM (seqM (litM '(')
        (seqM (optM (litM '≈'))
        (seqM (clsStarM jsSpace)
        (seqM (groupM 4 (clsPlusM digitCommaDot))
        (seqM (clsStarM jsSpace)
        (seqM (groupM 5 (clsPlusM (fun c => c ≠ ')')))
        (litM ')'))))))))))))))

/-- Embeds `components/RatingDisplay.tsx` score regex:
`/([0-9,.]+)\/([0-9,.]+)(?:\s*\(([0-9,.]+)\s*([^)]+)\))?/i` -/
def scoreRx : RxM :=
  seqM (groupM 1 (clsPlusM digitCommaDot))
  (seqM (litM '/')
  (seqM (groupM 2 (clsPlusM digitCommaDot))
  (optM (seqM (clsStarM jsSpace)
        (seqM (litM '(')
        (seqM (groupM 3 (clsPlusM digitCommaDot))
        (seqM (clsStarM jsSpace)
        (seqM (groupM 4 (clsPlusM (fun c => c ≠ ')')))
        (litM ')')))))))))

/-- Embeds `ParsedRating` of `RatingDisplay.tsx`.  Numeric fields hold `none` both for
an absent (`undefined`) field and for a `NaN` produced by `parseFloat`. -/
structure ParsedRating where
  stars : Option Rat := none
  maxStars : Option Rat := none
  score : Option Rat := none
  reviewCount : Option Rat := none
  description : Option String := none
  rawString : Option String := none
deriving DecidableEq

/-- Embeds `parseRating` of `RatingDisplay.tsx`: star format, then score/max format,
then a raw-string fallback; `null` on blank input. -/
def parseRating (ratingString : String) : Option ParsedRating :=
  if jsTrim ratingString = "" then none
  else
    let t := jsTrim ratingString
    match execSearch starRx t.toList with
    | some caps =>
      let score := parseFloatOpt (replaceFirstChar ((capGet caps 1).getD "") ',' '.')
      some { stars := score
             maxStars :=
               match capGet caps 2 with
               | some m => parseFloatOpt (replaceFirstChar m ',' '.')
               | none => some 5
             score := score
             description := (capGet caps 3).map jsTrim
             reviewCount := (capGet caps 4).map (fun r => parseFloatOpt (removeCommasDots r)) |>.join
             rawString := some t }
    | none =>
      match execSearch scoreRx t.toList with
      | some caps =>
        let score := parseFloatOpt (replaceFirstChar ((capGet caps 1).getD "") ',' '.')
        some { score := score
               maxStars := parseFloatOpt (replaceFirstChar ((capGet caps 2).getD "") ',' '.')
               stars := score
               reviewCount := (capGet caps 3).map (fun r => parseFloatOpt (removeCommasDots r)) |>.join
               rawString := some t }
      | none => some { rawString := some t }

/-! ## FlightDisplay: `parseFlight` -/

/-- Embeds `.` in a JS regex without the `s` flag: any char but a line terminator. -/
def jsDot (c : Char) : Bool :=
  c ≠ '\n' && c ≠ '\r' && c ≠ ' ' && c ≠ ' '

/-- Embeds `\d{2}:\d{2}` (times) and `\d{2}\.\d{2}` (dates). -/
def twoDigitPair (sep : Char) : RxM :=
  seqM (repM (clsM Char.isDigit) 2) (seqM (litM sep) (repM (clsM Char.isDigit) 2))

/-- Embeds `components/FlightDisplay.tsx` flight regex (note the `i` flag, which makes
`[A-Z]` match either case):
`/^([A-Z]{3})\s*(?:(\d{2}\.\d{2})\s*(\d{2}:\d{2}))?\s*[→-]\s*([A-Z]{3})\s*(\d{2}:\d{2})?\s*(?:\|\s*(.+))?/i` -/
def flightRx : RxM :=
  seqM (groupM 1 (repM (clsM Char.isAlpha) 3))
  (seqM (clsStarM jsSpace)
  (seqM (optM (seqM (groupM 2 (twoDigitPair '.'))
              (seqM (clsStarM jsSpace) (groupM 3 (twoDigitPair ':')))))
  (seqM (clsStarM jsSpace)
  (seqM (clsM (fun c => c = '→' || c = '-'))
  (seqM (clsStarM jsSpace)
  (seqM (groupM 4 (repM (clsM Char.isAlpha) 3))
  (seqM (clsStarM jsSpace)
  (seqM (optM (groupM 5 (twoDigitPair ':')))
  (seqM (clsStarM jsSpace)
  (optM (seqM (litM '|') (seqM (clsStarM jsSpace) (groupM 6 (clsPlusM jsDot))))))))))))))

/-- Embeds `components/FlightDisplay.tsx` airline regex (case-sensitive):
`/^(.*?)(?:\s+([A-Z0-9]+))?$/` -/
def airlineRx : RxM :=
  seqM (groupM 1 (clsStarLazyM jsDot))
  (seqM (optM (seqM (clsPlusM jsSpace)
              (groupM 2 (clsPlusM (fun c => ('A' ≤ c && c ≤ 'Z') || c.isDigit)))))
  endM)

/-- Embeds `ParsedFlight` of `FlightDisplay.tsx` (`from`/`to` are Lean keywords, so
the fields are named `fromAp`/`toAp`). -/
structure ParsedFlight where
  fromAp : String
  toAp : String
  date : Option String := none
  departureTime : Option String := none
  arrivalTime : Option String := none
  airline : Option String := none
  flightNumber : Option String := none
  rawString : Option String := none
deriving DecidableEq

/-- Embeds `x || undefined` for an optional capture (an empty capture is falsy). -/
def orUndef : Option String → Option String
  | some "" => none
  | x => x

/-- Embeds `parseFlight` of `FlightDisplay.tsx`: the anchored flight regex, with the
airline/flight-number split of the `| …` tail; raw-string fallback; `null` on
blank input. -/
def parseFlight (flightString : String) : Option ParsedFlight :=
  if jsTrim flightString = "" then none
  else
    let t := jsTrim flightString
    match execHere flightRx t.toList with
    | some caps =>
      let base : ParsedFlight :=
        { fromAp := (capGet caps 1).getD ""
          toAp := (capGet caps 4).getD ""
          date := orUndef (capGet caps 2)
          departureTime := orUndef (capGet caps 3)
          arrivalTime := orUndef (capGet caps 5) }
      match orUndef (capGet caps 6) with
      | some info =>
        match execHere airlineRx info.toList with
        | some acaps =>
          some { base with airline := some (jsTrim ((capGet acaps 1).getD ""))
                           flightNumber := orUndef (capGet acaps 2) }
        | none => some { base with airline := some (jsTrim info) }
      | none => some base
    | none => some { fromAp := "", toAp := "", rawString := some t }

/-! ## A model of JS values and `JSON.parse` -/

/-- JS values as far as this code base observes them.  Numbers are `Rat`
(floating-point rounding is irrelevant to every claim); an `obj`'s key list is
kept free of duplicates by `JSON.parse` and by object construction. -/
inductive Js where
  | undefined : Js
  | null : Js
  | bool : Bool → Js
  | num : Rat → Js
  | str : String → Js
  | arr : List Js → Js
  | obj : List (String × Js) → Js

/-- Embeds `typeof v === "object"` (true exactly for `null`, arrays and objects). -/
def jsTypeofObject : Js → Bool
  | .null | .arr _ | .obj _ => true
  | _ => false

/-- Embeds `v === null`. -/
def jsIsNull : Js → Bool
  | .null => true
  | _ => false

/-- Truthiness. -/
def jsTruthy : Js → Bool
  | .undefined | .null => false
  | .bool b => b
  | .num n => n ≠ 0
  | .str s => s ≠ ""
  | .arr _ | .obj _ => true

/-- Property access `v.k`: throws (`.error`) on `null`/`undefined`, yields
`undefined` for a missing key and for non-object primitives.  (Index and
`length` properties of arrays are not modelled; no route accesses them.) -/
def jsGetProp : Js → String → Except Unit Js
  | .null, _ => .error ()
  | .undefined, _ => .error ()
  | .obj kvs, k => .ok (((kvs.find? (fun kv => kv.1 == k)).map (·.2)).getD .undefined)
  | _, _ => .ok .undefined

/-- Optional chaining `v?.k` (never throws). -/
def jsGetPropOpt (v : Js) (k : String) : Js :=
  match jsGetProp v k with
  | .error _ => .undefined
  | .ok r => r

/-- Embeds `Object.entries(v)`.  (The JS reordering of integer-like keys is not
modelled; the field ids this app stores are non-numeric slugs.) -/
def jsEntries : Js → List (String × Js)
  | .obj kvs => kvs
  | .arr xs => xs.enum.map (fun p => (toString p.1, p.2))
  | _ => []

/-- Decimal (or, for non-decimal denominators, fractional) rendering of a
rational; stands for JS number-to-string conversion, whose exact double
formatting is abstracted and is irrelevant to every claim. -/
def ratToJsString (n : Rat) : String :=
  if n.den = 1 then toString n.num else toString n.num ++ "/" ++ toString n.den

mutual
/-- Embeds `String(v)` coercion. -/
def jsToString : Js → String
  | .undefined => "undefined"
  | .null => "null"
  | .bool true => "true"
  | .bool false => "false"
  | .num n => ratToJsString n
  | .str s => s
  | .arr xs => jsToStringElems xs
  | .obj _ => "[object Object]"

/-- Array `toString`: elements joined by `,`, with `null`/`undefined` as empty. -/
def jsToStringElems : List Js → String
  | [] => ""
  | [x] => jsToStringElem x
  | x :: xs => jsToStringElem x ++ "," ++ jsToStringElems xs

def jsToStringElem : Js → String
  | .undefined => ""
  | .null => ""
  | x => jsToString x
end

/-- JSON whitespace. -/
def jsonWs (c : Char) : Bool := c = ' ' || c = '\t' || c = '\n' || c = '\r'

/-- JSON string body after the opening quote: returns content and rest after
the closing quote. -/
def jsonStringBody : List Char → Option (List Char × List Char)
  | [] => none
  | '"' :: t => some ([], t)
  | '\\' :: e :: t =>
    (match e with
     | '"' => some '"' | '\\' => some '\\' | '/' => some '/'
     | 'b' => some '\x08' | 'f' => some '\x0c' | 'n' => some '\n'
     | 'r' => some '\r' | 't' => some '\t'
     | _ => none).bind (fun c =>
      (jsonStringBody t).map (fun pr : List Char × List Char => (c :: pr.1, pr.2)))
  | c :: t =>
    if c.toNat < 0x20 then none
    else (jsonStringBody t).map (fun pr => (c :: pr.1, pr.2))

/-- JSON number after an optional leading `-`: `(0|[1-9]\d*)(\.\d+)?([eE][+-]?\d+)?`. -/
def jsonNumTail (neg : Bool) (cs : List Char) : Option (Rat × List Char) :=
  let intDs := cs.takeWhile Char.isDigit
  let rest := cs.dropWhile Char.isDigit
  if intDs.isEmpty then none
  else if intDs.length > 1 && intDs.headD '0' = '0' then none
  else
    let (fracDs, rest2) : List Char × List Char :=
      match rest with
      | '.' :: t => (t.takeWhile Char.isDigit, t.dropWhile Char.isDigit)
      | _ => ([], rest)
    if rest ≠ rest2 && fracDs.isEmpty then none
    else
      let step : Option (Int × List Char) :=
        match rest2 with
        | 'e' :: t | 'E' :: t =>
          let (es, t') : Int × List Char :=
            match t with
            | '+' :: u => (1, u)
            | '-' :: u => (-1, u)
            | _ => (1, t)
          let eds := t'.takeWhile Char.isDigit
          if eds.isEmpty then none
          else some (es * (digitsToNat eds : Int), t'.dropWhile Char.isDigit)
        | _ => some (0, rest2)
      step.map (fun pr =>
        let mant : Rat := (digitsToNat intDs : Rat) + fracToRat fracDs
        (applyExp10 (if neg then -mant else mant) pr.1, pr.2))

/-- Insert a key into an object under construction: a duplicate key keeps its
original position but takes the later value (the `JSON.parse` behaviour). -/
def objInsert (kvs : List (String × Js)) (k : String) (v : Js) : List (String × Js) :=
  if kvs.any (fun kv => kv.1 == k) then
    kvs.map (fun kv => if kv.1 == k then (k, v) else kv)
  else kvs ++ [(k, v)]

mutual
/-- One JSON value; `fuel` bounds nesting (callers pass the input length, which
always suffices since every nesting level consumes a character). -/
def jsonValue (fuel : Nat) (cs : List Char) : Option (Js × List Char) :=
  match fuel with
  | 0 => none
  | fuel + 1 =>
    match cs with
    | 'n' :: 'u' :: 'l' :: 'l' :: t => some (.null, t)
    | 't' :: 'r' :: 'u' :: 'e' :: t => some (.bool true, t)
    | 'f' :: 'a' :: 'l' :: 's' :: 'e' :: t => some (.bool false, t)
    | '"' :: t => (jsonStringBody t).map (fun pr => (.str (String.mk pr.1), pr.2))
    | '-' :: t => (jsonNumTail true t).map (fun pr => (.num pr.1, pr.2))
    | '[' :: t =>
      (match (t.dropWhile jsonWs) with
       | ']' :: u => some (.arr [], u)
       | u => (jsonElems fuel u).map (fun pr => (.arr pr.1, pr.2)))
    | '{' :: t =>
      (match (t.dropWhile jsonWs) with
       | '}' :: u => some (.obj [], u)
       | u => (jsonMembers fuel [] u).map (fun pr => (.obj pr.1, pr.2)))
    | c :: t =>
      if c.isDigit then (jsonNumTail false (c :: t)).map (fun pr => (.num pr.1, pr.2))
      else none
    | [] => none

/-- Comma-separated array elements up to the closing `]`. -/
def jsonElems (fuel : Nat) (cs : List Char) : Option (List Js × List Char) :=
  match fuel with
  | 0 => none
  | fuel + 1 =>
    (jsonValue fuel (cs.dropWhile jsonWs)).bind (fun pr =>
      match pr.2.dropWhile jsonWs with
      | ']' :: u => some ([pr.1], u)
      | ',' :: u => (jsonElems fuel u).map (fun qr => (pr.1 :: qr.1, qr.2))
      | _ => none)

/-- Comma-separated object members up to the closing `}`. -/
def jsonMembers (fuel : Nat) (acc : List (String × Js)) (cs : List Char) :
    Option (List (String × Js) × List Char) :=
  match fuel with
  | 0 => none
  | fuel + 1 =>
    match cs.dropWhile jsonWs with
    | '"' :: t =>
      (jsonStringBody t).bind (fun kp =>
        match kp.2.dropWhile jsonWs with
        | ':' :: u =>
          (jsonValue fuel (u.dropWhile jsonWs)).bind (fun pr =>
            let acc' := objInsert acc (String.mk kp.1) pr.1
            match pr.2.dropWhile jsonWs with
            | '}' :: v => some (acc', v)
            | ',' :: v => jsonMembers fuel acc' v
            | _ => none)
        | _ => none)
    | _ => none
end

/-- Embeds `JSON.parse`: `none` models a thrown `SyntaxError`. -/
def jsonParse (s : String) : Option Js :=
  let cs := s.toList
  match jsonValue (cs.length + 1) (cs.dropWhile jsonWs) with
  | some (v, rest) => if (rest.dropWhile jsonWs).isEmpty then some v else none
  | none => none

/-! ## PriceDisplay: `parsePrice` -/

/-- Embeds `PriceBreakdown` of `PriceDisplay.tsx`.  `none` stands for an absent,
`null` or non-numeric entry (the sanitiser maps absent ones to `null`). -/
structure PriceBreakdown where
  flights : Option Rat := none
  accommodation : Option Rat := none
  food : Option Rat := none
  transport : Option Rat := none
  activities : Option Rat := none
  climate : Option Rat := none
  other : Option Rat := none
deriving DecidableEq

/-- Embeds `PriceData` of `PriceDisplay.tsx`. -/
structure PriceData where
  total : Rat
  breakdown : Option PriceBreakdown := none
  currency : Option String := none
  type : Option String := none
  isAllInclusive : Option Bool := none
deriving DecidableEq

/-- Embeds `x ?? null` after an optional chain, kept when numeric (a non-numeric
entry is abstracted to `none`; the UI only ever writes numbers or `null`). -/
def numOrNull : Js → Option Rat
  | .num n => some n
  | _ => none

/-- Embeds `parsed.total || 0` (a non-numeric truthy `total` is abstracted to `0`;
the UI serialiser only writes numeric totals). -/
def numOrZero : Js → Rat
  | .num n => n
  | _ => 0

/-- Embeds `parsed.f || d` for the string-typed fields `currency` and `type` (a
non-string truthy value is abstracted to the default). -/
def strOr (v : Js) (d : String) : String :=
  match v with
  | .str s => if s = "" then d else s
  | _ => d

/-- The non-JSON branch of `parsePrice`: currency regex, numeric extraction
over `[^\d.-]`-stripped input, and the per-person / all-inclusive keyword
checks on the `label` prop. -/
def parsePriceFallback (label priceString : String) : PriceData :=
  let currency := (currencyFind priceString.toList).getD "PLN"
  let total := (parseFloatOpt (stripNonNum priceString)).getD 0
  let ll := jsToLower label
  let isPerPersonContext :=
    jsIncludes ll "osob" || jsIncludes ll "person" || jsIncludes ll "per person"
  { total := total
    currency := some currency
    type := some (if isPerPersonContext then "per-person" else "total")
    isAllInclusive := some (jsIncludes ll "inclusive" || jsIncludes ll "all-in") }

/-- Embeds `parsePrice` of `PriceDisplay.tsx`.  It is created with `useCallback(…,
[label])` and reads the `label` prop, so it is a function of the label and the
string.  A blank string yields the zero record; a JSON object with a defined
`total` yields the sanitised record; everything else (including a JSON parse
error and the exception thrown by `parsed.total` when the JSON is `null`)
falls through to `parsePriceFallback`. -/
def parsePrice (label priceString : String) : PriceData :=
  if jsTrim priceString = "" then { total := 0, currency := some "PLN", type := some "total" }
  else
    match jsonParse priceString with
    | some parsed =>
      if jsTypeofObject parsed then
        match jsGetProp parsed "total" with
        | .error _ => parsePriceFallback label priceString
        | .ok .undefined => parsePriceFallback label priceString
        | .ok tv =>
          let bd := jsGetPropOpt parsed "breakdown"
          { total := numOrZero tv
            breakdown := some
              { flights := numOrNull (jsGetPropOpt bd "flights")
                accommodation := numOrNull (jsGetPropOpt bd "accommodation")
                food := numOrNull (jsGetPropOpt bd "food")
                transport := numOrNull (jsGetPropOpt bd "transport")
                activities := numOrNull (jsGetPropOpt bd "activities")
                climate := numOrNull (jsGetPropOpt bd "climate")
                other := numOrNull (jsGetPropOpt bd "other") }
            currency := some (strOr (jsGetPropOpt parsed "currency") "PLN")
            type := some (strOr (jsGetPropOpt parsed "type") "total")
            isAllInclusive := some (jsTruthy (jsGetPropOpt parsed "isAllInclusive")) }
      else parsePriceFallback label priceString
    | none => parsePriceFallback label priceString

/-! ## Component props and derived parse state -/

/-- Data props of `RatingDisplay` (the `onChange` callback carries no data). -/
structure RatingProps where
  value : String
  isEditing : Bool
  label : String

/-- Data props of `FlightDisplay`. -/
structure FlightProps where
  value : String
  isEditing : Bool
  label : String

/-- Data props of `PriceDisplay`. -/
structure PriceProps where
  value : String
  isEditing : Bool
  personCount : Int
  durationDays : Int
  label : String

/-- The `rating` state `RatingDisplay` derives in its effect:
`setRating(parseRating(value))`. -/
def ratingStateOf (p : RatingProps) : Option ParsedRating := parseRating p.value

/-- The `flight` state `FlightDisplay` derives: `setFlight(parseFlight(value))`. -/
def flightStateOf (p : FlightProps) : Option ParsedFlight := parseFlight p.value

/-- The `priceData` state `PriceDisplay` derives: `setPriceData(parsePrice(value))`,
where `parsePrice` closes over the `label` prop. -/
def priceStateOf (p : PriceProps) : PriceData := parsePrice p.label p.value

/-! ## Field-type detection and cell rendering (`VacationOffersComparison.tsx`) -/

def priceKeywords : List String :=
  ["cena", "price", "koszt", "cost", "kwota", "amount", "suma", "total", "w-sumie"]

def negativeKeywords : List String :=
  ["ocena", "rating", "review", "score", "note"]

def ratingKeywords : List String :=
  ["ocena", "rating", "review", "score", "gwiazdka", "star", "opinion"]

def flightKeywords : List String :=
  ["lot", "flight", "samolot", "wylot", "powrot", "departure", "arrival", "return"]

/-- Does some keyword occur in the lower-cased field id or label? -/
def keywordHit (kws : List String) (fieldId label : String) : Bool :=
  kws.any (fun k => jsIncludes (jsToLower fieldId) k || jsIncludes (jsToLower label) k)

/-- Embeds `isPriceField`: a price keyword occurs and no negative (rating-like)
keyword occurs; empty field id or label short-circuits to `false`. -/
def isPriceField (fieldId label : String) : Bool :=
  if fieldId = "" || label = "" then false
  else if keywordHit negativeKeywords fieldId label then false
  else keywordHit priceKeywords fieldId label

/-- Embeds `isRatingField`. -/
def isRatingField (fieldId label : String) : Bool :=
  if fieldId = "" || label = "" then false
  else keywordHit ratingKeywords fieldId label

/-- Embeds `isFlightField`. -/
def isFlightField (fieldId label : String) : Bool :=
  if fieldId = "" || label = "" then false
  else keywordHit flightKeywords fieldId label

/-- Which cell renderer the cards view picks (the ternary chain at the
`{isPriceField(col.fieldId, col.label) ? <PriceDisplay…` site).  `.text`
collapses the remaining branches (textarea when editing, link / list /
pros-cons formatting, plain `<pre>`), none of which is a specialized
component. -/
inductive CellKind where
  | price | rating | flight | text
deriving DecidableEq

def cellKind (fieldId label : String) : CellKind :=
  if isPriceField fieldId label then .price
  else if isRatingField fieldId label then .rating
  else if isFlightField fieldId label then .flight
  else .text

/-- The frontend `Column` type. -/
structure ColumnView where
  id : String
  fieldId : String
  label : String
  icon : Option String := none
  order : Int := 0
deriving DecidableEq

/-- The frontend `Offer` type (`values` is a string-keyed record). -/
structure OfferView where
  id : String
  values : List (String × String)
deriving DecidableEq

/-- Record lookup `offer.values[f]` (`none` = `undefined`). -/
def lookupValue (vals : List (String × String)) (k : String) : Option String :=
  ((vals.find? (fun kv => kv.1 == k)).map (·.2))

/-- Embeds `offer.values[f] || d`. -/
def lookupOr (vals : List (String × String)) (k d : String) : String :=
  match lookupValue vals k with
  | some v => if v = "" then d else v
  | none => d

/-- The person-column predicate of `getPersonCount`'s `columns.find(...)`. -/
def isPersonCol (col : ColumnView) : Bool :=
  col.fieldId != "" && col.label != "" &&
  (jsIncludes (jsToLower col.fieldId) "osob" ||
   jsIncludes (jsToLower col.label) "osob" ||
   jsIncludes (jsToLower col.fieldId) "person" ||
   jsIncludes (jsToLower col.label) "person" ||
   jsIncludes (jsToLower col.fieldId) "people")

/-- The duration-column predicate of `getDurationDays`'s `columns.find(...)`. -/
def isDurationCol (col : ColumnView) : Bool :=
  col.fieldId != "" && col.label != "" &&
  (jsIncludes (jsToLower col.fieldId) "dni" ||
   jsIncludes (jsToLower col.fieldId) "days" ||
   jsIncludes (jsToLower col.fieldId) "duration" ||
   jsIncludes (jsToLower col.label) "dni" ||
   jsIncludes (jsToLower col.label) "days" ||
   jsIncludes (jsToLower col.label) "noc")

/-- Embeds `getPersonCount`: the value of the first person-keyword column, parsed
with `parseInt`, defaulting to 1 when there is no such column, the value is
missing/non-numeric, or it is below 1. -/
def getPersonCount (columns : List ColumnView) (offer : OfferView) : Int :=
  if columns.isEmpty then 1
  else
    match columns.find? isPersonCol with
    | some col =>
      if col.fieldId ≠ "" then
        match parseIntOpt (lookupOr offer.values col.fieldId "1") with
        | none => 1
        | some n => if n < 1 then 1 else n
      else 1
    | none => 1

/-- Embeds `getDurationDays`: as `getPersonCount` but over duration keywords and with
default 7. -/
def getDurationDays (columns : List ColumnView) (offer : OfferView) : Int :=
  if columns.isEmpty then 7
  else
    match columns.find? isDurationCol with
    | some col =>
      if col.fieldId ≠ "" then
        match parseIntOpt (lookupOr offer.values col.fieldId "7") with
        | none => 7
        | some n => if n < 1 then 7 else n
      else 7
    | none => 7

/-! ## The database state and the API routes

`Db` mirrors the SQL migration: `columns`, `offers` (only ids matter to the
routes), `offer_values`.  `nextId` models generation of fresh row ids
(`cuid()`) and, for columns, the `createdAt` timestamp as a creation sequence
number.  Each route takes `failAt`: `some k` means the `k`-th ORM call (0-based
in program order) throws, and the thrown exception is handled by the route's
`catch` block; `none` means every ORM call succeeds. -/

structure OfferValueRow where
  id : String
  offerId : String
  fieldId : String
  value : String
deriving DecidableEq

structure ColumnRow where
  id : String
  fieldId : String
  label : String
  icon : Option String
  order : Int
  createdAt : Nat
deriving DecidableEq

structure Db where
  columns : List ColumnRow := []
  offers : List String := []
  offerValues : List OfferValueRow := []
  nextId : Nat := 0
deriving DecidableEq

def Db.empty : Db := {}

structure ApiResp where
  status : Nat
  error : Option String := none
deriving DecidableEq

/-- Stable insertion into an order-sorted column list. -/
def insertByOrder (c : ColumnRow) : List ColumnRow → List ColumnRow
  | [] => [c]
  | d :: ds => if c.order ≤ d.order then c :: d :: ds else d :: insertByOrder c ds

/-- Embeds `ORDER BY "order" ASC` (Prisma `orderBy: { order: 'asc' }`). -/
def sortByOrder : List ColumnRow → List ColumnRow
  | [] => []
  | c :: cs => insertByOrder c (sortByOrder cs)

/-- Embeds `GET /api/columns`: all columns sorted ascending by `order`. -/
def columnsGET (failAt : Option Nat) (db : Db) : ApiResp × List ColumnRow :=
  if failAt = some 0 then ({ status := 500, error := some "Failed to fetch columns" }, [])
  else ({ status := 200 }, sortByOrder db.columns)

/-- The order of `prisma.column.findFirst({ orderBy: { order: 'desc' } })`,
i.e. the maximum column order, `none` when the table is empty. -/
def maxOrder? : List ColumnRow → Option Int
  | [] => none
  | c :: cs =>
    match maxOrder? cs with
    | none => some c.order
    | some m => some (max c.order m)

/-- Embeds `POST /api/columns`: no body validation; reads `fieldId`/`label`/`icon`
off the parsed body, computes `order = (lastColumn?.order ?? -1) + 1` and
creates the column.  Any throw — unparsable body, destructuring `null`,
Prisma rejecting a missing/non-string required field or a duplicate unique
`fieldId` — lands in the catch block as a 500. -/
def columnsPOST (failAt : Option Nat) (db : Db) (body : Except Unit Js) : ApiResp × Db :=
  match body with
  | .error _ => ({ status := 500, error := some "Failed to create column" }, db)
  | .ok j =>
    match jsGetProp j "fieldId", jsGetProp j "label", jsGetProp j "icon" with
    | .ok fidJ, .ok lblJ, .ok icnJ =>
      if failAt = some 0 then ({ status := 500, error := some "Failed to create column" }, db)
      else
        let order := (maxOrder? db.columns).getD (-1) + 1
        let mkIcon : Js → Option (Option String) := fun v =>
          match v with
          | .undefined => some none
          | .null => some none
          | .str s => some (some s)
          | _ => none
        match fidJ, lblJ, mkIcon icnJ with
        | .str fid, .str lbl, some icn =>
          if failAt = some 1 ∨ db.columns.any (fun c => c.fieldId == fid) = true then
            ({ status := 500, error := some "Failed to create column" }, db)
          else
            ({ status := 200 },
             { db with
                columns := db.columns ++
                  [{ id := toString db.nextId, fieldId := fid, label := lbl,
                     icon := icn, order := order, createdAt := db.nextId }]
                nextId := db.nextId + 1 })
        | _, _, _ => ({ status := 500, error := some "Failed to create column" }, db)
    | _, _, _ => ({ status := 500, error := some "Failed to create column" }, db)

/-- Embeds `DELETE /api/columns?fieldId=`: 400 without the query parameter; otherwise
`offerValue.deleteMany({ where: { fieldId } })` and then
`column.delete({ where: { fieldId } })` — two separate calls, so when the
second throws (e.g. no such column) the value deletion has already happened. -/
def columnsDELETE (failAt : Option Nat) (db : Db) (fieldId? : Option String) : ApiResp × Db :=
  match fieldId? with
  | none => ({ status := 400, error := some "fieldId is required" }, db)
  | some fid =>
    if failAt = some 0 then ({ status := 500, error := some "Failed to delete column" }, db)
    else
      let db1 := { db with offerValues := db.offerValues.filter (fun v => v.fieldId != fid) }
      if failAt = some 1 ∨ db1.columns.any (fun c => c.fieldId == fid) = false then
        ({ status := 500, error := some "Failed to delete column" }, db1)
      else
        ({ status := 200 }, { db1 with columns := db1.columns.filter (fun c => c.fieldId != fid) })

/-- Embeds `GET /api/offers` (the payload shape is not claim-relevant). -/
def offersGET (failAt : Option Nat) (_db : Db) : ApiResp :=
  if failAt = some 0 then { status := 500, error := some "Failed to fetch offers" }
  else { status := 200 }

/-- Duplicate keys among object entries (they would violate the
`(offerId, fieldId)` unique index inside the nested create). -/
def dupKeys : List (String × Js) → Bool
  | [] => false
  | kv :: t => t.any (fun kw => kw.1 == kv.1) || dupKeys t

/-- The nested `create` rows: `Object.entries(values).map(([fieldId, value]) =>
({ fieldId, value: String(value) }))`, with ids drawn sequentially from the
id generator. -/
def newRows (base : Nat) (oid : String) (entries : List (String × Js)) : List OfferValueRow :=
  entries.enum.map (fun p =>
    { id := toString (base + p.1), offerId := oid, fieldId := p.2.1, value := jsToString p.2.2 })

/-- Embeds `POST /api/offers`: 400 unless `values` is a non-null object, then one
`offer.create` with nested value rows built from `Object.entries(values)`
with `String(value)` coercion. -/
def offersPOST (failAt : Option Nat) (db : Db) (body : Except Unit Js) : ApiResp × Db :=
  match body with
  | .error _ => ({ status := 500, error := some "Failed to create offer" }, db)
  | .ok j =>
    match jsGetProp j "values" with
    | .error _ => ({ status := 500, error := some "Failed to create offer" }, db)
    | .ok values =>
      if jsTypeofObject values = false ∨ jsIsNull values = true then
        ({ status := 400, error := some "Invalid values format. Expected an object." }, db)
      else
        let entries := jsEntries values
        if failAt = some 0 ∨ dupKeys entries = true then
          ({ status := 500, error := some "Failed to create offer" }, db)
        else
          let oid := toString db.nextId
          ({ status := 201 },
           { db with
              offers := db.offers ++ [oid]
              offerValues := db.offerValues ++ newRows (db.nextId + 1) oid entries
              nextId := db.nextId + 1 + entries.length })

/-- Embeds `PUT /api/offers/{id}`: validation (id present, `values` a non-null
object), then `offerValue.deleteMany({ where: { offerId: id } })` (ORM call 0)
and then `offer.update` with nested creates (ORM call 1) — no transaction
wraps the two, so a throw in call 1 leaves the deletion of call 0 committed. -/
def offersPUT (failAt : Option Nat) (db : Db) (id : String) (body : Except Unit Js) :
    ApiResp × Db :=
  match body with
  | .error _ => ({ status := 500, error := some "Failed to update offer" }, db)
  | .ok j =>
    match jsGetProp j "values" with
    | .error _ => ({ status := 500, error := some "Failed to update offer" }, db)
    | .ok values =>
      if id = "" then ({ status := 400, error := some "Offer ID is required in URL params" }, db)
      else if jsTypeofObject values = false ∨ jsIsNull values = true then
        ({ status := 400, error := some "Invalid values format. Expected an object." }, db)
      else if failAt = some 0 then ({ status := 500, error := some "Failed to update offer" }, db)
      else
        let db1 := { db with offerValues := db.offerValues.filter (fun v => v.offerId != id) }
        let entries := jsEntries values
        if failAt = some 1 ∨ db1.offers.contains id = false ∨ dupKeys entries = true then
          ({ status := 500, error := some "Failed to update offer" }, db1)
        else
          ({ status := 200 },
           { db1 with
              offerValues := db1.offerValues ++ newRows db1.nextId id entries
              nextId := db1.nextId + entries.length })

/-- Embeds `DELETE /api/offers/{id}`: `offer.delete` removes the offer row and, via
the schema's `ON DELETE CASCADE` on `offer_values.offerId`, its value rows. -/
def offersDELETE (failAt : Option Nat) (db : Db) (id : String) : ApiResp × Db :=
  if id = "" then ({ status := 400, error := some "Offer ID is required in URL params" }, db)
  else if failAt = some 0 ∨ db.offers.contains id = false then
    ({ status := 500, error := some "Failed to delete offer" }, db)
  else
    ({ status := 200 },
     { db with
        offers := db.offers.filter (fun o => o != id)
        offerValues := db.offerValues.filter (fun v => v.offerId != id) })

/-! ## The persisted schema's constraints

Transcribed from the SQL migration: primary keys on each table's `id`, the
unique index `columns_fieldId_key`, the foreign key
`offer_values_offerId_fkey` (to `offers(id)`, `ON DELETE CASCADE`), and the
unique index `offer_values_offerId_fieldId_key`.  The migration declares **no**
constraint between `offer_values.fieldId` and `columns`, and accordingly the
checker has no such clause. -/

/-- Pairwise-distinct check. -/
def nodupL [BEq α] : List α → Bool
  | [] => true
  | x :: t => !(t.contains x) && nodupL t

/-- Does a database state satisfy every constraint the migration declares? -/
def dbConstraintsOk (db : Db) : Bool :=
  nodupL (db.columns.map (·.id)) &&
  nodupL (db.columns.map (·.fieldId)) &&
  nodupL db.offers &&
  nodupL (db.offerValues.map (·.id)) &&
  db.offerValues.all (fun v => db.offers.contains v.offerId) &&
  nodupL (db.offerValues.map (fun v => (v.offerId, v.fieldId)))

/-! ## Traces of API calls -/

/-- One API call, as far as it affects the stored state. -/
inductive ApiOp where
  | postColumn (body : Except Unit Js)
  | deleteColumn (fieldId? : Option String)
  | postOffer (body : Except Unit Js)
  | putOffer (id : String) (body : Except Unit Js)
  | deleteOffer (id : String)

/-- Apply one successful-ORM call to the state (the state a route leaves
behind is its second component whatever the response status). -/
def applyOp (db : Db) : ApiOp → Db
  | .postColumn b => (columnsPOST none db b).2
  | .deleteColumn f => (columnsDELETE none db f).2
  | .postOffer b => (offersPOST none db b).2
  | .putOffer i b => (offersPUT none db i b).2
  | .deleteOffer i => (offersDELETE none db i).2

/-- The state reached from the empty database by a sequence of API calls. -/
def runOps (ops : List ApiOp) : Db := ops.foldl applyOp Db.empty

/-! ## Claims -/

/-- A bne filter keeps exactly the rows whose projection differs. -/
theorem mem_filter_bne {α β} [DecidableEq β] (f : α → β) (b : β) (l : List α) (x : α) :
    x ∈ l.filter (fun a => f a != b) ↔ x ∈ l ∧ f x ≠ b := by
  simp [List.mem_filter]

/-- C1: for every field id, a successful `DELETE /api/columns?fieldId=`
removes exactly the offer values carrying that field id and exactly the
column with that field id (offers untouched); afterwards no offer value and
no column with that field id remains. -/
theorem columnsDELETE_cascades (db : Db) (fid : String) (resp : ApiResp) (db' : Db)
    (h : columnsDELETE none db (some fid) = (resp, db'))
    (hs : resp.status = 200) :
    db'.offerValues = db.offerValues.filter (fun v => v.fieldId != fid) ∧
    db'.columns = db.columns.filter (fun c => c.fieldId != fid) ∧
    db'.offers = db.offers ∧
    (∀ v ∈ db'.offerValues, v.fieldId ≠ fid) ∧
    (∀ c ∈ db'.columns, c.fieldId ≠ fid) := by
  unfold columnsDELETE at h
  simp only [reduceCtorEq, if_false, false_or] at h
  split at h
  · injection h with h1 h2
    subst h1; simp at hs
  · injection h with h1 h2
    subst h2
    refine ⟨rfl, rfl, rfl, ?_, ?_⟩
    · intro v hv
      exact ((mem_filter_bne (·.fieldId) fid db.offerValues v).mp hv).2
    · intro c hc
      exact ((mem_filter_bne (·.fieldId) fid db.columns c).mp hc).2

/-- A concrete database for the C1 witness. -/
def dbDelColEx : Db :=
  { columns := [{ id := "0", fieldId := "cena", label := "Cena", icon := none,
                  order := 0, createdAt := 0 },
                { id := "1", fieldId := "hotel", label := "Hotel", icon := none,
                  order := 1, createdAt := 1 }]
    offers := ["o1"]
    offerValues := [{ id := "2", offerId := "o1", fieldId := "cena", value := "100" },
                    { id := "3", offerId := "o1", fieldId := "hotel", value := "X" }]
    nextId := 4 }

/-- Witness for `columnsDELETE_cascades` at a concrete state. -/
theorem columnsDELETE_cascades_witness :
    (columnsDELETE none dbDelColEx (some "cena")).2.offerValues =
      dbDelColEx.offerValues.filter (fun v => v.fieldId != "cena") ∧
    (columnsDELETE none dbDelColEx (some "cena")).2.columns =
      dbDelColEx.columns.filter (fun c => c.fieldId != "cena") ∧
    (columnsDELETE none dbDelColEx (some "cena")).2.offers = dbDelColEx.offers ∧
    (∀ v ∈ (columnsDELETE none dbDelColEx (some "cena")).2.offerValues, v.fieldId ≠ "cena") ∧
    (∀ c ∈ (columnsDELETE none dbDelColEx (some "cena")).2.columns, c.fieldId ≠ "cena") :=
  columnsDELETE_cascades dbDelColEx "cena"
    (columnsDELETE none dbDelColEx (some "cena")).1
    (columnsDELETE none dbDelColEx (some "cena")).2 rfl (by decide)

/-- Filtering for a key after filtering it away yields nothing. -/
theorem filter_bne_then_beq {α β} [DecidableEq β] (f : α → β) (b : β) (l : List α) :
    (l.filter (fun a => f a != b)).filter (fun a => f a == b) = [] := by
  induction l with
  | nil => rfl
  | cons x t ih =>
    by_cases hx : f x = b <;> simp [hx, ih]

/-- Filtering by the same key predicate twice is the same as once. -/
theorem filter_bne_idem {α β} [DecidableEq β] (f : α → β) (b : β) (l : List α) :
    (l.filter (fun a => f a != b)).filter (fun a => f a != b) =
      l.filter (fun a => f a != b) := by
  induction l with
  | nil => rfl
  | cons x t ih =>
    by_cases hx : f x = b <;> simp [hx, ih]

/-- A filter that accepts every mapped element is the identity on the map. -/
theorem filter_map_all_true {α β} (g : α → β) (p : β → Bool) (l : List α)
    (h : ∀ x, p (g x) = true) : (l.map g).filter p = l.map g := by
  induction l with
  | nil => rfl
  | cons x t ih => simp [h x, ih]

/-- A filter that rejects every mapped element empties the map. -/
theorem filter_map_all_false {α β} (g : α → β) (p : β → Bool) (l : List α)
    (h : ∀ x, p (g x) = false) : (l.map g).filter p = [] := by
  induction l with
  | nil => rfl
  | cons x t ih => simp [h x, ih]

/-- Every `newRows` row belongs to its offer. -/
theorem newRows_filter_beq (base : Nat) (oid : String) (l : List (String × Js)) :
    (newRows base oid l).filter (fun r => r.offerId == oid) = newRows base oid l :=
  filter_map_all_true
    (fun p : Nat × String × Js =>
      ({ id := toString (base + p.1), offerId := oid,
         fieldId := p.2.1, value := jsToString p.2.2 } : OfferValueRow))
    (fun r => r.offerId == oid) l.enum (fun x => by simp)

/-- No `newRows` row belongs to another offer. -/
theorem newRows_filter_bne (base : Nat) (oid : String) (l : List (String × Js)) :
    (newRows base oid l).filter (fun r => r.offerId != oid) = [] :=
  filter_map_all_false
    (fun p : Nat × String × Js =>
      ({ id := toString (base + p.1), offerId := oid,
         fieldId := p.2.1, value := jsToString p.2.2 } : OfferValueRow))
    (fun r => r.offerId != oid) l.enum (fun x => by simp)

/-- C2: a successful `PUT /api/offers/{id}` whose body's `values` field is an
object `V` replaces the offer's whole value set: afterwards the offer's rows
are exactly one row per entry of `V` (value coerced by `String(…)`), rows of
other offers are untouched, and every row the offer now has is one of the
newly created ones. -/
theorem offersPUT_replaces_values (db : Db) (id : String) (j values : Js)
    (resp : ApiResp) (db' : Db)
    (hv : jsGetProp j "values" = .ok values)
    (h : offersPUT none db id (.ok j) = (resp, db'))
    (hs : resp.status = 200) :
    db'.offerValues.filter (fun r => r.offerId == id) =
      newRows db.nextId id (jsEntries values) ∧
    db'.offerValues.filter (fun r => r.offerId != id) =
      db.offerValues.filter (fun r => r.offerId != id) ∧
    (∀ r ∈ db'.offerValues, r.offerId = id →
      r ∈ newRows db.nextId id (jsEntries values)) := by
  unfold offersPUT at h
  simp only [hv, reduceCtorEq, if_false, false_or] at h
  split at h
  · injection h with h1 h2; subst h1; simp at hs
  · split at h
    · injection h with h1 h2; subst h1; simp at hs
    · split at h
      · injection h with h1 h2; subst h1; simp at hs
      · injection h with h1 h2
        subst h2
        refine ⟨?_, ?_, ?_⟩
        · simp only [List.filter_append,
            filter_bne_then_beq (fun r : OfferValueRow => r.offerId) id,
            newRows_filter_beq, List.nil_append]
        · simp only [List.filter_append,
            filter_bne_idem (fun r : OfferValueRow => r.offerId) id,
            newRows_filter_bne, List.append_nil]
        · intro r hr hrid
          rcases List.mem_append.mp hr with hold | hnew
          · exact absurd hrid ((mem_filter_bne (·.offerId) id db.offerValues r).mp hold).2
          · exact hnew

/-- A concrete pre-state and body for the C2 witness. -/
def dbPutEx : Db :=
  { columns := []
    offers := ["o1"]
    offerValues := [{ id := "0", offerId := "o1", fieldId := "cena", value := "50" },
                    { id := "1", offerId := "o2", fieldId := "cena", value := "70" }]
    nextId := 2 }

def putBodyJs : Js := Js.obj [("values", Js.obj [("cena", Js.str "100"), ("hotel", Js.str "H")])]

def putValuesJs : Js := Js.obj [("cena", Js.str "100"), ("hotel", Js.str "H")]

/-- Witness for `offersPUT_replaces_values` at a concrete state and body. -/
theorem offersPUT_replaces_values_witness :
    (offersPUT none dbPutEx "o1" (.ok putBodyJs)).2.offerValues.filter
        (fun r => r.offerId == "o1") =
      newRows dbPutEx.nextId "o1" (jsEntries putValuesJs) ∧
    (offersPUT none dbPutEx "o1" (.ok putBodyJs)).2.offerValues.filter
        (fun r => r.offerId != "o1") =
      dbPutEx.offerValues.filter (fun r => r.offerId != "o1") ∧
    (∀ r ∈ (offersPUT none dbPutEx "o1" (.ok putBodyJs)).2.offerValues, r.offerId = "o1" →
      r ∈ newRows dbPutEx.nextId "o1" (jsEntries putValuesJs)) :=
  offersPUT_replaces_values dbPutEx "o1" putBodyJs putValuesJs
    (offersPUT none dbPutEx "o1" (.ok putBodyJs)).1
    (offersPUT none dbPutEx "o1" (.ok putBodyJs)).2 rfl rfl (by decide)

/-- C3: no transaction wraps the PUT handler's two writes.  In the execution
where the nested create (ORM call 1) throws after `deleteMany` (ORM call 0)
succeeded, the handler answers 500 and the offer — which had values before —
is left with an empty value set rather than its previous values. -/
theorem offersPUT_not_atomic (db : Db) (id : String) (j values : Js)
    (resp : ApiResp) (db' : Db)
    (hv : jsGetProp j "values" = .ok values)
    (hid : id ≠ "")
    (hobj : jsTypeofObject values = true)
    (hnull : jsIsNull values = false)
    (hprev : db.offerValues.filter (fun r => r.offerId == id) ≠ [])
    (h : offersPUT (some 1) db id (.ok j) = (resp, db')) :
    resp.status = 500 ∧
    db'.offerValues.filter (fun r => r.offerId == id) = [] ∧
    db'.offerValues.filter (fun r => r.offerId == id) ≠
      db.offerValues.filter (fun r => r.offerId == id) := by
  unfold offersPUT at h
  simp only [hv, hid, hobj, hnull, reduceCtorEq, Option.some.injEq, if_false,
    false_or, or_false, if_true, true_or, Nat.one_ne_zero, reduceIte] at h
  injection h with h1 h2
  subst h1 h2
  have hempty : (db.offerValues.filter (fun v => v.offerId != id)).filter
      (fun r => r.offerId == id) = [] :=
    filter_bne_then_beq (fun r : OfferValueRow => r.offerId) id _
  refine ⟨rfl, hempty, ?_⟩
  rw [hempty]
  exact fun e => hprev e.symm

/-- Witness for `offersPUT_not_atomic`: the same concrete pre-state with the
create step failing. -/
theorem offersPUT_not_atomic_witness :
    (offersPUT (some 1) dbPutEx "o1" (.ok putBodyJs)).1.status = 500 ∧
    (offersPUT (some 1) dbPutEx "o1" (.ok putBodyJs)).2.offerValues.filter
        (fun r => r.offerId == "o1") = [] ∧
    (offersPUT (some 1) dbPutEx "o1" (.ok putBodyJs)).2.offerValues.filter
        (fun r => r.offerId == "o1") ≠
      dbPutEx.offerValues.filter (fun r => r.offerId == "o1") :=
  offersPUT_not_atomic dbPutEx "o1" putBodyJs putValuesJs
    (offersPUT (some 1) dbPutEx "o1" (.ok putBodyJs)).1
    (offersPUT (some 1) dbPutEx "o1" (.ok putBodyJs)).2
    rfl (by decide) (by decide) (by decide) (by decide) rfl

/-- C4 counterexample: a malformed request body (one that is not valid JSON,
so `request.json()` throws) is handled by the catch-all and answered with
HTTP 500, not 400 — on `POST /api/columns` (which validates nothing) and on
`POST /api/offers` alike. -/
theorem malformed_body_yields_500 :
    (columnsPOST none Db.empty (.error ())).1.status = 500 ∧
    (columnsPOST none Db.empty (.error ())).1.status ≠ 400 ∧
    (offersPOST none Db.empty (.error ())).1.status = 500 ∧
    (offersPOST none Db.empty (.error ())).1.status ≠ 400 := by
  refine ⟨rfl, by decide, rfl, by decide⟩

/-- C4 (amended): every route converts a thrown ORM call into an HTTP 500
with that route's static message; the explicit validations answer 400 with a
static message (non-object/null `values` on offer POST/PUT, empty offer id on
PUT/DELETE, missing `fieldId` query on column DELETE).  A body that is not
valid JSON is *not* answered with 400: it falls into the same catch-all
(`malformed_body_yields_500`). -/
theorem api_error_handling :
    (∀ db : Db, offersGET (some 0) db =
      { status := 500, error := some "Failed to fetch offers" }) ∧
    (∀ db : Db, (columnsGET (some 0) db).1 =
      { status := 500, error := some "Failed to fetch columns" }) ∧
    (∀ (db : Db) (j values : Js), jsGetProp j "values" = .ok values →
      jsTypeofObject values = true → jsIsNull values = false →
      (offersPOST (some 0) db (.ok j)).1 =
        { status := 500, error := some "Failed to create offer" }) ∧
    (∀ (db : Db) (id : String) (j values : Js), jsGetProp j "values" = .ok values →
      id ≠ "" → jsTypeofObject values = true → jsIsNull values = false →
      (offersPUT (some 0) db id (.ok j)).1 =
        { status := 500, error := some "Failed to update offer" } ∧
      (offersPUT (some 1) db id (.ok j)).1 =
        { status := 500, error := some "Failed to update offer" }) ∧
    (∀ (db : Db) (id : String), id ≠ "" →
      (offersDELETE (some 0) db id).1 =
        { status := 500, error := some "Failed to delete offer" }) ∧
    (∀ (db : Db) (j fidJ lblJ icnJ : Js),
      jsGetProp j "fieldId" = .ok fidJ → jsGetProp j "label" = .ok lblJ →
      jsGetProp j "icon" = .ok icnJ →
      (columnsPOST (some 0) db (.ok j)).1 =
        { status := 500, error := some "Failed to create column" }) ∧
    (∀ (db : Db) (fid : String),
      (columnsDELETE (some 0) db (some fid)).1 =
        { status := 500, error := some "Failed to delete column" } ∧
      (columnsDELETE (some 1) db (some fid)).1 =
        { status := 500, error := some "Failed to delete column" }) ∧
    (∀ (db : Db) (j values : Js) (failAt : Option Nat),
      jsGetProp j "values" = .ok values →
      jsTypeofObject values = false ∨ jsIsNull values = true →
      (offersPOST failAt db (.ok j)).1 =
        { status := 400, error := some "Invalid values format. Expected an object." }) ∧
    (∀ (db : Db) (id : String) (j values : Js) (failAt : Option Nat),
      jsGetProp j "values" = .ok values →
      id ≠ "" → (jsTypeofObject values = false ∨ jsIsNull values = true) →
      (offersPUT failAt db id (.ok j)).1 =
        { status := 400, error := some "Invalid values format. Expected an object." }) ∧
    (∀ (db : Db) (j values : Js) (failAt : Option Nat),
      jsGetProp j "values" = .ok values →
      (offersPUT failAt db "" (.ok j)).1 =
        { status := 400, error := some "Offer ID is required in URL params" }) ∧
    (∀ (db : Db) (failAt : Option Nat),
      (offersDELETE failAt db "").1 =
        { status := 400, error := some "Offer ID is required in URL params" }) ∧
    (∀ (db : Db) (failAt : Option Nat),
      (columnsDELETE failAt db none).1 =
        { status := 400, error := some "fieldId is required" }) := by
  refine ⟨?_, ?_, ?_, ?_, ?_, ?_, ?_, ?_, ?_, ?_, ?_, ?_⟩
  · intro db; rfl
  · intro db; rfl
  · intro db j values hv hobj hnull
    simp [offersPOST, hv, hobj, hnull]
  · intro db id j values hv hid hobj hnull
    constructor <;> simp [offersPUT, hv, hid, hobj, hnull]
  · intro db id hid
    simp [offersDELETE, hid]
  · intro db j fidJ lblJ icnJ hf hl hi
    simp [columnsPOST, hf, hl, hi]
  · intro db fid
    constructor <;> simp [columnsDELETE]
  · intro db j values failAt hv hbad
    rcases hbad with hb | hb <;> simp [offersPOST, hv, hb]
  · intro db id j values failAt hv hid hbad
    rcases hbad with hb | hb <;> simp [offersPUT, hv, hid, hb]
  · intro db j values failAt hv
    simp [offersPUT, hv]
  · intro db failAt
    simp [offersDELETE]
  · intro db failAt
    rfl

/-- Witness for `api_error_handling`: concrete instances of an ORM failure on
offer creation and of the `values` validation on offer update. -/
theorem api_error_handling_witness :
    (offersPOST (some 0) dbPutEx (.ok putBodyJs)).1 =
      { status := 500, error := some "Failed to create offer" } ∧
    (offersPUT none dbPutEx "o1" (.ok (Js.obj [("values", Js.null)]))).1 =
      { status := 400, error := some "Invalid values format. Expected an object." } :=
  ⟨api_error_handling.2.2.1 dbPutEx putBodyJs putValuesJs rfl (by decide) (by decide),
   (api_error_handling.2.2.2.2.2.2.2.2.1 dbPutEx "o1" (Js.obj [("values", Js.null)])
      Js.null none rfl (by decide) (Or.inr (by decide)))⟩

/-- C5 counterexample: on the empty string no regex matches, yet `parseRating`
returns `null` — not a fallback record carrying the trimmed raw string — so
the claim fails for blank inputs (`parseFlight` behaves the same way). -/
theorem parseRating_blank_counterexample :
    parseRating "" = none ∧
    execSearch starRx (jsTrim "").toList = none ∧
    execSearch scoreRx (jsTrim "").toList = none ∧
    parseRating "" ≠ some { rawString := some "" } ∧
    parseFlight "" = none := by
  exact ⟨rfl, rfl, rfl, by decide, rfl⟩

/-- C5 (amended): on every input that is non-blank after trimming, a parser
whose regexes all fail returns its raw-string fallback record; `parsePrice`
yields `total = 0` whenever JSON parsing fails and numeric extraction fails
(blank input also yields `total = 0`).  All three parsers are total Lean
functions, so termination without exceptions holds by construction. -/
theorem parsers_fallback :
    (∀ s : String, jsTrim s ≠ "" → execSearch starRx (jsTrim s).toList = none →
      execSearch scoreRx (jsTrim s).toList = none →
      parseRating s = some { rawString := some (jsTrim s) }) ∧
    (∀ s : String, jsTrim s ≠ "" → execHere flightRx (jsTrim s).toList = none →
      parseFlight s = some { fromAp := "", toAp := "", rawString := some (jsTrim s) }) ∧
    (∀ label s : String, jsonParse s = none →
      parseFloatOpt (stripNonNum s) = none →
      (parsePrice label s).total = 0) := by
  refine ⟨?_, ?_, ?_⟩
  · intro s hs h1 h2
    simp only [String.toList] at h1 h2
    simp [parseRating, hs, h1, h2]
  · intro s hs h1
    simp only [String.toList] at h1
    simp [parseFlight, hs, h1]
  · intro label s hjson hfloat
    by_cases hb : jsTrim s = "" <;>
      simp [parsePrice, parsePriceFallback, hb, hjson, hfloat]

/-- Witness for `parsers_fallback` at concrete non-matching inputs. -/
theorem parsers_fallback_witness :
    parseRating "hello" = some { rawString := some "hello" } ∧
    parseFlight "world" = some { fromAp := "", toAp := "", rawString := some "world" } ∧
    (parsePrice "cena" "abc").total = 0 :=
  ⟨parsers_fallback.1 "hello" (by decide) rfl rfl,
   parsers_fallback.2.1 "world" (by decide) rfl,
   parsers_fallback.2.2 "cena" "abc" rfl rfl⟩

/-- C6 counterexample: `parsePrice` reads the `label` prop (per-person /
all-inclusive detection), so two renders with the same cell string but
different labels derive different parsed results — the parse does depend on an
input other than the string. -/
theorem parsePrice_label_dependent :
    (⟨"100", false, 1, 1, "cena"⟩ : PriceProps).value =
      (⟨"100", false, 1, 1, "cena za osobę"⟩ : PriceProps).value ∧
    priceStateOf ⟨"100", false, 1, 1, "cena"⟩ ≠
      priceStateOf ⟨"100", false, 1, 1, "cena za osobę"⟩ := by
  refine ⟨rfl, fun h => absurd (congrArg PriceData.type h) ?_⟩
  decide

/-- C6 (amended): each parser is pure.  `parseRating` and `parseFlight` depend
on the `value` string alone; `parsePrice` depends on exactly the `value`
string and the `label` prop (and on nothing else — not on `isEditing`,
`personCount` or `durationDays`). -/
theorem parsers_deterministic :
    (∀ p q : RatingProps, p.value = q.value → ratingStateOf p = ratingStateOf q) ∧
    (∀ p q : FlightProps, p.value = q.value → flightStateOf p = flightStateOf q) ∧
    (∀ p q : PriceProps, p.value = q.value → p.label = q.label →
      priceStateOf p = priceStateOf q) := by
  refine ⟨?_, ?_, ?_⟩
  · intro p q h; simp [ratingStateOf, h]
  · intro p q h; simp [flightStateOf, h]
  · intro p q h1 h2; simp [priceStateOf, h1, h2]

/-- Witness for `parsers_deterministic`: prop records differing in everything
but the inputs each parse actually reads. -/
theorem parsers_deterministic_witness :
    ratingStateOf ⟨"★ 4,2", false, "Ocena"⟩ = ratingStateOf ⟨"★ 4,2", true, "Inna"⟩ ∧
    flightStateOf ⟨"KRK → BCN", false, "Lot"⟩ = flightStateOf ⟨"KRK → BCN", true, "X"⟩ ∧
    priceStateOf ⟨"100", false, 1, 1, "cena"⟩ = priceStateOf ⟨"100", true, 2, 3, "cena"⟩ :=
  ⟨parsers_deterministic.1 _ _ rfl, parsers_deterministic.2.1 _ _ rfl,
   parsers_deterministic.2.2 _ _ rfl rfl⟩

/-- A state with an `offer_values` row whose `fieldId` names no column at all
(the `columns` table is non-empty but holds only `price`). -/
def dbDanglingEx : Db :=
  { columns := [{ id := "c1", fieldId := "price", label := "Price", icon := none,
                  order := 0, createdAt := 0 }]
    offers := ["o1"]
    offerValues := [{ id := "v1", offerId := "o1", fieldId := "ghost", value := "" }]
    nextId := 5 }

/-- A state violating the `(offerId, fieldId)` unique index. -/
def dbDupPairEx : Db :=
  { columns := []
    offers := ["o1"]
    offerValues := [{ id := "v1", offerId := "o1", fieldId := "cena", value := "1" },
                    { id := "v2", offerId := "o1", fieldId := "cena", value := "2" }]
    nextId := 5 }

/-- C7: the persisted schema constrains `offer_values` only by its primary
key, the foreign key on `offerId` (whose `ON DELETE CASCADE` the offer-delete
route exhibits) and the `(offerId, fieldId)` unique index: (1) every accepted
state references existing offers; (2) a state whose `offer_values.fieldId`
matches no column is nevertheless accepted — no foreign key to `columns`
exists; (3) the unique index is part of the checker; (4) deleting an offer
cascades to its values. -/
theorem schema_no_fieldId_fk :
    (∀ (db : Db) (v : OfferValueRow), dbConstraintsOk db = true →
      v ∈ db.offerValues → db.offers.contains v.offerId = true) ∧
    (dbConstraintsOk dbDanglingEx = true ∧ dbDanglingEx.columns ≠ [] ∧
      (∀ c ∈ dbDanglingEx.columns, c.fieldId ≠ "ghost") ∧
      (∃ v ∈ dbDanglingEx.offerValues, v.fieldId = "ghost")) ∧
    dbConstraintsOk dbDupPairEx = false ∧
    (∀ (db : Db) (id : String) (resp : ApiResp) (db' : Db),
      offersDELETE none db id = (resp, db') → resp.status = 200 →
      ∀ v ∈ db'.offerValues, v.offerId ≠ id) := by
  refine ⟨?_, ⟨by decide, by decide, by decide, ⟨_, List.mem_cons_self _ _, rfl⟩⟩, by decide, ?_⟩
  · intro db v hok hv
    simp only [dbConstraintsOk, Bool.and_eq_true] at hok
    have h5 : db.offerValues.all (fun v => db.offers.contains v.offerId) = true := by tauto
    exact List.all_eq_true.mp h5 v hv
  · intro db id resp db' h hs
    unfold offersDELETE at h
    split at h
    · injection h with h1 h2; subst h1; simp at hs
    · split at h
      · injection h with h1 h2; subst h1; simp at hs
      · injection h with h1 h2
        subst h2
        intro v hv
        exact ((mem_filter_bne (·.offerId) id db.offerValues v).mp hv).2

/-- Witness for `schema_no_fieldId_fk` at the concrete states. -/
theorem schema_no_fieldId_fk_witness :
    dbDanglingEx.offers.contains
      ({ id := "v1", offerId := "o1", fieldId := "ghost", value := "" } : OfferValueRow).offerId
      = true ∧
    (∀ v ∈ (offersDELETE none dbDanglingEx "o1").2.offerValues, v.offerId ≠ "o1") :=
  ⟨schema_no_fieldId_fk.1 dbDanglingEx
      { id := "v1", offerId := "o1", fieldId := "ghost", value := "" } (by decide)
      (List.mem_cons_self _ _),
   schema_no_fieldId_fk.2.2.2 dbDanglingEx "o1"
      (offersDELETE none dbDanglingEx "o1").1
      (offersDELETE none dbDanglingEx "o1").2 rfl (by decide)⟩

/-- C8: the cards view picks a cell's renderer purely from the column's
`fieldId` and `label` with fixed precedence — `PriceDisplay` iff
`isPriceField`, else `RatingDisplay` iff `isRatingField`, else `FlightDisplay`
iff `isFlightField`, else plain text; `isPriceField` holds iff both names are
non-empty, some price keyword occurs and no negative keyword occurs; and any
label containing `ocena` (hence also containing `cena`) renders as a rating,
never as a price. -/
theorem cellKind_precedence :
    (∀ f l, cellKind f l = .price ↔ isPriceField f l = true) ∧
    (∀ f l, cellKind f l = .rating ↔
      (isPriceField f l = false ∧ isRatingField f l = true)) ∧
    (∀ f l, cellKind f l = .flight ↔
      (isPriceField f l = false ∧ isRatingField f l = false ∧ isFlightField f l = true)) ∧
    (∀ f l, isPriceField f l = true ↔
      (f ≠ "" ∧ l ≠ "" ∧ keywordHit negativeKeywords f l = false ∧
        keywordHit priceKeywords f l = true)) ∧
    (∀ f l, f ≠ "" → l ≠ "" → jsIncludes (jsToLower l) "ocena" = true →
      cellKind f l = .rating ∧ cellKind f l ≠ .price) := by
  refine ⟨?_, ?_, ?_, ?_, ?_⟩
  · intro f l; unfold cellKind; split_ifs with h1 h2 h3 <;> simp_all
  · intro f l; unfold cellKind; split_ifs with h1 h2 h3 <;> simp_all
  · intro f l; unfold cellKind; split_ifs with h1 h2 h3 <;> simp_all
  · intro f l
    unfold isPriceField
    split_ifs with h1 h2
    · simp only [Bool.or_eq_true, decide_eq_true_eq] at h1
      rcases h1 with h | h <;> simp [h]
    · simp [h2]
    · simp only [Bool.or_eq_true, decide_eq_true_eq, not_or] at h1
      simp only [Bool.not_eq_true] at h2
      simp [h1.1, h1.2, h2]
  · intro f l hf hl hoc
    have hneg : keywordHit negativeKeywords f l = true := by
      unfold keywordHit
      simp only [List.any_eq_true]
      exact ⟨"ocena", by decide, by simp [hoc]⟩
    have hpr : isPriceField f l = false := by
      unfold isPriceField
      simp [hf, hl, hneg]
    have hrat : isRatingField f l = true := by
      unfold isRatingField keywordHit
      rw [if_neg (by simp [hf, hl])]
      simp only [List.any_eq_true]
      exact ⟨"ocena", by decide, by simp [hoc]⟩
    constructor
    · unfold cellKind; simp [hpr, hrat]
    · unfold cellKind; simp [hpr, hrat]

/-- Witness for `cellKind_precedence`: the `cena`-and-`ocena` label renders as
a rating. -/
theorem cellKind_precedence_witness :
    cellKind "ocena-i-cena" "Ocena i cena" = .rating ∧
    cellKind "ocena-i-cena" "Ocena i cena" ≠ .price :=
  cellKind_precedence.2.2.2.2 "ocena-i-cena" "Ocena i cena"
    (by decide) (by decide) (by decide)

/-- C9: `getPersonCount` and `getDurationDays` always return integers of at
least 1 (so the per-person and per-day divisions they feed never divide by
zero), defaulting to 1 resp. 7 when no matching column exists and when the
stored value is missing, non-numeric, or below 1. -/
theorem person_duration_bounds :
    (∀ (cols : List ColumnView) (offer : OfferView),
      1 ≤ getPersonCount cols offer ∧ 1 ≤ getDurationDays cols offer ∧
      getPersonCount cols offer ≠ 0 ∧ getDurationDays cols offer ≠ 0) ∧
    (∀ offer : OfferView, getPersonCount [] offer = 1 ∧ getDurationDays [] offer = 7) ∧
    (∀ (cols : List ColumnView) (offer : OfferView), cols.find? isPersonCol = none →
      getPersonCount cols offer = 1) ∧
    (∀ (cols : List ColumnView) (offer : OfferView), cols.find? isDurationCol = none →
      getDurationDays cols offer = 7) ∧
    (∀ (cols : List ColumnView) (offer : OfferView) (col : ColumnView),
      cols.find? isPersonCol = some col →
      (parseIntOpt (lookupOr offer.values col.fieldId "1") = none ∨
        ∃ n, parseIntOpt (lookupOr offer.values col.fieldId "1") = some n ∧ n < 1) →
      getPersonCount cols offer = 1) ∧
    (∀ (cols : List ColumnView) (offer : OfferView) (col : ColumnView),
      cols.find? isDurationCol = some col →
      (parseIntOpt (lookupOr offer.values col.fieldId "7") = none ∨
        ∃ n, parseIntOpt (lookupOr offer.values col.fieldId "7") = some n ∧ n < 1) →
      getDurationDays cols offer = 7) := by
  have hp : ∀ (cols : List ColumnView) (offer : OfferView), 1 ≤ getPersonCount cols offer := by
    intro cols offer
    unfold getPersonCount
    split
    · omega
    · split
      · split
        · split
          · omega
          · split <;> omega
        · omega
      · omega
  have hd : ∀ (cols : List ColumnView) (offer : OfferView), 1 ≤ getDurationDays cols offer := by
    intro cols offer
    unfold getDurationDays
    split
    · omega
    · split
      · split
        · split
          · omega
          · split <;> omega
        · omega
      · omega
  refine ⟨fun cols offer => ⟨hp cols offer, hd cols offer,
      by have := hp cols offer; omega, by have := hd cols offer; omega⟩,
    fun offer => ⟨rfl, rfl⟩, ?_, ?_, ?_, ?_⟩
  · intro cols offer h
    unfold getPersonCount
    split
    · rfl
    · rw [h]
  · intro cols offer h
    unfold getDurationDays
    split
    · rfl
    · rw [h]
  · intro cols offer col h1 h2
    unfold getPersonCount
    split
    · rfl
    · split
      · rename_i col2 heq
        rw [h1] at heq
        injection heq with heq
        subst heq
        split
        · rcases h2 with h2 | ⟨n, hn, hlt⟩
          · rw [h2]
          · rw [hn]; simp [hlt]
        · rfl
      · rfl
  · intro cols offer col h1 h2
    unfold getDurationDays
    split
    · rfl
    · split
      · rename_i col2 heq
        rw [h1] at heq
        injection heq with heq
        subst heq
        split
        · rcases h2 with h2 | ⟨n, hn, hlt⟩
          · rw [h2]
          · rw [hn]; simp [hlt]
        · rfl
      · rfl

/-- Witness for `person_duration_bounds` at concrete inputs. -/
theorem person_duration_bounds_witness :
    getPersonCount [] ⟨"o", []⟩ = 1 ∧ getDurationDays [] ⟨"o", []⟩ = 7 ∧
    getPersonCount [⟨"c", "hotel", "Hotel", none, 0⟩] ⟨"o", []⟩ = 1 ∧
    getDurationDays [⟨"c", "hotel", "Hotel", none, 0⟩] ⟨"o", []⟩ = 7 ∧
    getPersonCount [⟨"c", "osoby", "Osoby", none, 0⟩] ⟨"o", [("osoby", "abc")]⟩ = 1 :=
  ⟨(person_duration_bounds.2.1 ⟨"o", []⟩).1,
   (person_duration_bounds.2.1 ⟨"o", []⟩).2,
   person_duration_bounds.2.2.1 [⟨"c", "hotel", "Hotel", none, 0⟩] ⟨"o", []⟩ (by decide),
   person_duration_bounds.2.2.2.1 [⟨"c", "hotel", "Hotel", none, 0⟩] ⟨"o", []⟩ (by decide),
   person_duration_bounds.2.2.2.2.1 [⟨"c", "osoby", "Osoby", none, 0⟩] ⟨"o", [("osoby", "abc")]⟩
     ⟨"c", "osoby", "Osoby", none, 0⟩ (by decide) (Or.inl (by decide))⟩

/-! ## C10: column order assignment and `GET` ordering -/

/-- Every existing column's order is below the next assigned order. -/
theorem lt_newOrder (cols : List ColumnRow) (c : ColumnRow) (hc : c ∈ cols) :
    c.order < (maxOrder? cols).getD (-1) + 1 := by
  induction cols with
  | nil => simp at hc
  | cons d t ih =>
    rcases List.mem_cons.mp hc with rfl | hct
    · unfold maxOrder?
      cases ht : maxOrder? t with
      | none => simp
      | some m =>
        have h3 := le_max_left c.order m
        simp only [Option.getD_some]
        omega
    · cases t with
      | nil => simp at hct
      | cons x xs =>
        have h2 := ih hct
        unfold maxOrder?
        cases ht : maxOrder? (x :: xs) with
        | none => simp [maxOrder?] at ht; cases hx : maxOrder? xs <;> rw [hx] at ht <;> simp at ht
        | some m =>
          rw [ht] at h2
          simp only [Option.getD_some] at h2 ⊢
          have := le_max_right d.order m
          omega

/-- Inserting below every element of a sorted list prepends. -/
theorem insertByOrder_eq_cons (c : ColumnRow) (l : List ColumnRow)
    (h : ∀ d ∈ l, c.order ≤ d.order) : insertByOrder c l = c :: l := by
  cases l with
  | nil => rfl
  | cons d ds =>
    unfold insertByOrder
    rw [if_pos (h d (List.mem_cons_self d ds))]

/-- Sorting a list already strictly ascending in `order` is the identity. -/
theorem sortByOrder_eq_self (l : List ColumnRow)
    (h : l.Pairwise (fun a b => a.order < b.order)) : sortByOrder l = l := by
  induction l with
  | nil => rfl
  | cons c t ih =>
    rw [List.pairwise_cons] at h
    unfold sortByOrder
    rw [ih h.2, insertByOrder_eq_cons c t (fun d hd => le_of_lt (h.1 d hd))]

/-- The reachability invariant behind C10: creation stamps are fresh and the
column list is simultaneously in creation order and in strictly increasing
`order`. -/
def ColInv (db : Db) : Prop :=
  (∀ c ∈ db.columns, c.createdAt < db.nextId) ∧
  db.columns.Pairwise (fun a b => a.createdAt < b.createdAt ∧ a.order < b.order)

/-- Embeds `ColInv` holds in the empty database. -/
theorem colInv_empty : ColInv Db.empty := by
  refine ⟨?_, ?_⟩ <;> simp [Db.empty]

/-- Embeds `ColInv` transfers along unchanged columns and non-decreasing id counter. -/
theorem colInv_of_eq (db db' : Db) (h : ColInv db)
    (hc : db'.columns = db.columns) (hn : db.nextId ≤ db'.nextId) : ColInv db' := by
  refine ⟨?_, ?_⟩
  · intro c hcm
    rw [hc] at hcm
    exact lt_of_lt_of_le (h.1 c hcm) hn
  · rw [hc]; exact h.2

/-- Embeds `ColInv` survives filtering the column list. -/
theorem colInv_filter (db : Db) (h : ColInv db) (p : ColumnRow → Bool)
    (vals : List OfferValueRow) :
    ColInv { db with columns := db.columns.filter p, offerValues := vals } := by
  refine ⟨?_, ?_⟩
  · intro c hcm
    exact h.1 c (List.mem_of_mem_filter hcm)
  · exact h.2.sublist (List.filter_sublist _)

/-- Embeds `ColInv` survives appending the freshly created column. -/
theorem colInv_append (db : Db) (fid lbl : String) (icn : Option String)
    (h : ColInv db) :
    ColInv { db with
      columns := db.columns ++
        [{ id := toString db.nextId, fieldId := fid, label := lbl, icon := icn,
           order := (maxOrder? db.columns).getD (-1) + 1, createdAt := db.nextId }]
      nextId := db.nextId + 1 } := by
  refine ⟨?_, ?_⟩
  · intro c hcm
    rcases List.mem_append.mp hcm with hold | hnew
    · exact lt_trans (h.1 c hold) (Nat.lt_succ_self _)
    · rw [List.mem_singleton] at hnew
      subst hnew
      exact Nat.lt_succ_self _
  · refine List.pairwise_append.mpr ⟨h.2, List.pairwise_singleton _ _, ?_⟩
    intro a ha b hb
    rw [List.mem_singleton] at hb
    subst hb
    exact ⟨h.1 a ha, lt_newOrder db.columns a ha⟩

/-- Every API call preserves `ColInv`. -/
theorem colInv_applyOp (db : Db) (op : ApiOp) (h : ColInv db) : ColInv (applyOp db op) := by
  cases op with
  | postColumn b =>
    simp only [applyOp]
    cases b with
    | error e => exact h
    | ok j =>
      simp only [columnsPOST, reduceCtorEq, reduceIte, false_or]
      split
      all_goals try exact h
      split
      all_goals try exact h
      split
      · exact h
      · exact colInv_append db _ _ _ h
  | deleteColumn f =>
    simp only [applyOp]
    cases f with
    | none => exact h
    | some fid =>
      simp only [columnsDELETE, reduceCtorEq, reduceIte, false_or]
      split
      · exact colInv_of_eq db _ h rfl le_rfl
      · exact colInv_filter db h _ _
  | postOffer b =>
    simp only [applyOp]
    cases b with
    | error e => exact h
    | ok j =>
      simp only [offersPOST, reduceCtorEq, reduceIte, false_or]
      split
      all_goals try exact h
      split
      · exact h
      · split
        · exact h
        · exact colInv_of_eq db _ h rfl (le_trans (Nat.le_succ _) (Nat.le_add_right _ _))
  | putOffer i b =>
    simp only [applyOp]
    cases b with
    | error e => exact h
    | ok j =>
      simp only [offersPUT, reduceCtorEq, reduceIte, false_or]
      split
      all_goals try exact h
      split
      · exact h
      · split
        · exact h
        · split
          · exact colInv_of_eq db _ h rfl le_rfl
          · exact colInv_of_eq db _ h rfl (Nat.le_add_right _ _)
  | deleteOffer i =>
    simp only [applyOp]
    simp only [offersDELETE, reduceCtorEq, reduceIte, false_or]
    split
    · exact h
    · split
      · exact h
      · exact colInv_of_eq db _ h rfl le_rfl

/-- Embeds `ColInv` holds in every state reachable from the empty database. -/
theorem colInv_runOps (ops : List ApiOp) : ColInv (runOps ops) := by
  suffices hgen : ∀ (l : List ApiOp) (db : Db), ColInv db → ColInv (l.foldl applyOp db) from
    hgen ops Db.empty colInv_empty
  intro l
  induction l with
  | nil => intro db h; exact h
  | cons op t ih => intro db h; exact ih _ (colInv_applyOp db op h)

/-- C10: `POST /api/columns` assigns `order = (max existing order) + 1`, which
is `0` on an empty table and exceeds every existing column's order; hence in
every state reachable from the empty database the stored columns are
simultaneously in creation order and strictly ascending in `order`, and
`GET /api/columns` — which sorts ascending by `order` — returns them in
creation order (`createdAt` is the creation sequence stamp). -/
theorem columns_creation_order :
    (∀ db : Db, db.columns = [] → (maxOrder? db.columns).getD (-1) + 1 = 0) ∧
    (∀ db : Db, ∀ c ∈ db.columns, c.order < (maxOrder? db.columns).getD (-1) + 1) ∧
    (∀ (db : Db) (body : Except Unit Js) (resp : ApiResp) (db' : Db),
      columnsPOST none db body = (resp, db') → resp.status = 200 →
      ∃ col, db'.columns = db.columns ++ [col] ∧
        col.order = (maxOrder? db.columns).getD (-1) + 1 ∧
        ∀ c ∈ db.columns, c.order < col.order) ∧
    (∀ ops : List ApiOp,
      (columnsGET none (runOps ops)).2 = (runOps ops).columns ∧
      (columnsGET none (runOps ops)).2.Pairwise (fun a b => a.createdAt < b.createdAt) ∧
      (columnsGET none (runOps ops)).2.Pairwise (fun a b => a.order < b.order)) := by
  refine ⟨?_, ?_, ?_, ?_⟩
  · intro db hd
    rw [hd]
    rfl
  · intro db c hc
    exact lt_newOrder db.columns c hc
  · intro db body resp db' h hs
    unfold columnsPOST at h
    simp only [reduceCtorEq, reduceIte, false_or] at h
    repeat' split at h
    all_goals injection h with h1 h2
    all_goals first
      | (subst h1; exact absurd hs (by decide))
      | (subst h2; exact ⟨_, rfl, rfl, fun c hc => lt_newOrder db.columns c hc⟩)
  · intro ops
    have hinv := colInv_runOps ops
    have hsort : (columnsGET none (runOps ops)).2 = sortByOrder (runOps ops).columns := by
      simp [columnsGET]
    have heq : sortByOrder (runOps ops).columns = (runOps ops).columns :=
      sortByOrder_eq_self _ (hinv.2.imp (fun hab => hab.2))
    refine ⟨hsort.trans heq, ?_, ?_⟩
    · rw [hsort, heq]
      exact hinv.2.imp (fun hab => hab.1)
    · rw [hsort, heq]
      exact hinv.2.imp (fun hab => hab.2)

/-- A well-formed column-creation body. -/
def colBody (fid lbl : String) : Except Unit Js :=
  .ok (Js.obj [("fieldId", Js.str fid), ("label", Js.str lbl), ("icon", Js.str "Hash")])

/-- Witness for `columns_creation_order`: two creations from the empty
database leave the columns (and the `GET` payload) in creation order with
orders 0 and 1. -/
theorem columns_creation_order_witness :
    (∃ col, (columnsPOST none Db.empty (colBody "cena" "Cena")).2.columns =
        Db.empty.columns ++ [col] ∧
      col.order = (maxOrder? Db.empty.columns).getD (-1) + 1 ∧
      ∀ c ∈ Db.empty.columns, c.order < col.order) ∧
    (columnsGET none (runOps [.postColumn (colBody "cena" "Cena"),
        .postColumn (colBody "hotel" "Hotel")])).2.Pairwise
      (fun a b => a.createdAt < b.createdAt) :=
  ⟨columns_creation_order.2.2.1 Db.empty (colBody "cena" "Cena")
      (columnsPOST none Db.empty (colBody "cena" "Cena")).1
      (columnsPOST none Db.empty (colBody "cena" "Cena")).2 rfl (by decide),
   (columns_creation_order.2.2.2 [.postColumn (colBody "cena" "Cena"),
      .postColumn (colBody "hotel" "Hotel")]).2.1⟩

end Wakacje
